import Mathlib

/-!
Verification of `bfformatter.py` (class `BFFormatter`).

The Python source is shallowly embedded below.  Strings are modelled as
`List Char`, Python's real-valued arithmetic (floats used as mathematical
reals, as the design intends) is modelled exactly by `ℚ`, and the square
root appearing in the raster-width computation is modelled by the exact
ceiling-of-square-root function `ceilSqrtQ` (the bridge to `Real.sqrt` is
proved in `rasterWidth_eq_real_ceil` / `rasterHeight_eq_real_ceil`).
Fallible code is modelled with `Except`: a Python exception corresponds to
an `Except.error`, and since the file write in `format` happens only after
the whole output string is assembled, an error result means nothing is
written to the sink.

External collaborators (PIL) are modelled by their contract: an image has a
native `size = (width, height)`, and `resizeData w h` returns the pixel
list (`getdata()`) of the image resized to `(w, h)`, in row-major order.
-/

/-- An RGB pixel: three integer channels (PIL gives values in `[0, 255]`). -/
abbrev RGB : Type := ℕ × ℕ × ℕ

/-- The external image capability: native size plus, for each requested
target `(w, h)`, the row-major pixel data of the resized image
(`Image.open` + `img.resize((w, h))` + `img.getdata()`).  PIL guarantees
`(resizeData w h).length = w * h` and that the resized image's `size` is
exactly `(w, h)`; the scan loops below use the requested `w`, `h`
accordingly. -/
structure PILImage where
  size : ℕ × ℕ
  resizeData : ℕ → ℕ → List RGB

/-- The exceptions the embedded code can raise:
`invalidParameter` models the `ValueError` on a bad `ws_fraction`
(line 46), `zeroDivision` models Python's `ZeroDivisionError` in the
dimension computation (lines 51-52), and `configuration` models the
`ValueError` raised by `__init__` when neither `bf_string` nor `bf_file`
is given (line 28). -/
inductive FmtError where
  | invalidParameter
  | zeroDivision
  | configuration
  deriving DecidableEq

/-- Line 57: `(0.2126*px[0]+0.7152*px[1]+0.0722*px[2])/255`. -/
def luminance (px : RGB) : ℚ :=
  (0.2126 * (px.1 : ℚ) + 0.7152 * (px.2.1 : ℚ) + 0.0722 * (px.2.2 : ℚ)) / 255

/-- Exact `⌈√q⌉` for a rational `q` (`0` for `q ≤ 0`): the least natural
number `k` with `q ≤ k ^ 2`.  This is the exact value of
`int(math.ceil(q ** 0.5))` in real arithmetic; see
`rasterWidth_eq_real_ceil` for the proved bridge to `Real.sqrt`. -/
def ceilSqrtQ (q : ℚ) : ℕ :=
  if q ≤ 0 then 0
  else
    let s := Nat.sqrt (Int.toNat ⌈q⌉)
    if q ≤ (s : ℚ) ^ 2 then s else s + 1

/-- Line 49: `n_scaled = int(n//(1-ws_fraction))` — floor of the
real-valued quotient. -/
def nScaled (n : ℕ) (ws_fraction : ℚ) : ℕ :=
  (⌊(n : ℚ) / (1 - ws_fraction)⌋).toNat

/-- Lines 51 and 53: `width = int(math.ceil((n_scaled * W0 / float(H0)) ** 0.5))`. -/
def rasterWidth (m W0 H0 : ℕ) : ℕ :=
  ceilSqrtQ ((m * W0 : ℕ) / (H0 : ℚ))

/-- Lines 52 and 54: `height = int(math.ceil(n_scaled / width))` where
`width` is still the **real-valued** `(n_scaled * W0 / H0) ** 0.5` (the
rounding of `width` on line 53 happens after line 52).  Since
`m / √(m·W0/H0) = √(m·H0/W0)`, this equals the least `k` with
`m·H0/W0 ≤ k ^ 2`; the identity with `⌈m / √(m·W0/H0)⌉` is proved in
`rasterHeight_eq_real_ceil`. -/
def rasterHeight (m W0 H0 : ℕ) : ℕ :=
  ceilSqrtQ ((m * H0 : ℕ) / (W0 : ℚ))

/-- Lines 66-71, one row cell: walk the given flat indices, and at each
index, if the token cursor `c` has not exhausted `bf` and
`inv*Y[idx] < inv*0.5`, emit the next token and advance, else emit `' '`.
Returns the emitted characters together with the final cursor.
`Y.getD i 0` is Python's `Y[idx]`; under the PIL length contract the
index is always in bounds. -/
def scanCells (bf : List Char) (Y : List ℚ) (inv : ℚ) :
    List ℕ → ℕ → List Char × ℕ
  | [], c => ([], c)
  | i :: rest, c =>
    if c < bf.length ∧ inv * Y.getD i 0 < inv * 0.5 then
      let p := scanCells bf Y inv rest (c + 1)
      (bf.getD c ' ' :: p.1, p.2)
    else
      let p := scanCells bf Y inv rest c
      (' ' :: p.1, p.2)

/-- Lines 64-72: the double loop `for y in range(height): for x in
range(width)` with `idx = y*width+x`, threading the token cursor across
rows; each element of the result's first component is one output row
(without its trailing newline). -/
def scanGrid (bf : List Char) (Y : List ℚ) (inv : ℚ) (width : ℕ) :
    List ℕ → ℕ → List (List Char) × ℕ
  | [], c => ([], c)
  | y :: ys, c =>
    let row := scanCells bf Y inv ((List.range width).map (fun x => y * width + x)) c
    let rest := scanGrid bf Y inv width ys row.2
    (row.1 :: rest.1, rest.2)

/-- The raster width a `format` call computes for the token stream `bf`
and image `img`: line 53's `width` with `n_scaled = nScaled bf.length
ws_fraction` and `(W0, H0) = img.size`. -/
def gridW (bf : List Char) (img : PILImage) (ws_fraction : ℚ) : ℕ :=
  rasterWidth (nScaled bf.length ws_fraction) img.size.1 img.size.2

/-- The raster height a `format` call computes (line 54's `height`). -/
def gridH (bf : List Char) (img : PILImage) (ws_fraction : ℚ) : ℕ :=
  rasterHeight (nScaled bf.length ws_fraction) img.size.1 img.size.2

/-- Line 57: the luminance list `Y` of the image resized to the computed
raster dimensions. -/
def lumGrid (bf : List Char) (img : PILImage) (ws_fraction : ℚ) : List ℚ :=
  (img.resizeData (gridW bf img ws_fraction) (gridH bf img ws_fraction)).map luminance

/-- Lines 59-72: the complete raster scan of a `format` call — the rows
and the final token cursor `c`.  `inv` is `-1` when `invert` else `1`
(lines 59-62), and the loop bounds are the resized image's size, which PIL
makes exactly `(width, height)`. -/
def scanOf (bf : List Char) (img : PILImage) (invert : Bool)
    (ws_fraction : ℚ) : List (List Char) × ℕ :=
  scanGrid bf (lumGrid bf img ws_fraction) (if invert then -1 else 1)
    (gridW bf img ws_fraction) (List.range (gridH bf img ws_fraction)) 0

/-- Lines 45-74 of `BFFormatter.format`, up to output assembly: validates
`ws_fraction` (line 45), then computes `n_scaled`, `width`, `height`,
erroring with `zeroDivision` exactly where Python would — on line 51
`float(img.size[1])` is a zero divisor when `H0 = 0`, and on line 52 the
real-valued `width = (n_scaled*W0/H0)**0.5` is a zero divisor when
`n_scaled * W0 = 0` — then resizes, computes the luminance list, and runs
the raster scan.  Returns the raster rows and the leftover suffix
`bf_string[c:]` of line 74 (appended only `if c < n`). -/
def formatParts (bf : List Char) (img : PILImage) (invert : Bool)
    (ws_fraction : ℚ) : Except FmtError (List (List Char) × List Char) :=
  if ws_fraction ≥ 1 ∨ ws_fraction < 0 then
    .error .invalidParameter
  else if img.size.2 = 0 then .error .zeroDivision
  else if nScaled bf.length ws_fraction * img.size.1 = 0 then .error .zeroDivision
  else
    let g := scanOf bf img invert ws_fraction
    .ok (g.1, if g.2 < bf.length then bf.drop g.2 else [])

/-- `BFFormatter.format` (lines 32-77): the full output string, assembled
as in lines 58-74 — every raster row followed by `"\n"` (line 72), then
the leftover suffix with no added newline (lines 73-74).  On success the
string is both written to the sink and returned (lines 75-77); on error
nothing is written. -/
def format (bf : List Char) (img : PILImage) (invert : Bool)
    (ws_fraction : ℚ) : Except FmtError (List Char) :=
  (formatParts bf img invert ws_fraction).map
    (fun p => (p.1.map (fun row => row ++ ['\n'])).flatten ++ p.2)

/-- The characters *kept* by line 30's
`re.sub(r"[^\[^\]^<^>^\.^,^\+^-]", "", ...)`: the members of the negated
character class, namely `[`, `]`, `<`, `>`, `.`, `,`, `+`, `-` and also
`^` (each `^` after the first is a literal member of the class). -/
def keptChars : List Char := ['[', '^', ']', '<', '>', '.', ',', '+', '-']

/-- Line 30: the comment-stripping filter — remove every character that is
not in the regex character class. -/
def stripComments (s : List Char) : List Char :=
  s.filter (fun ch => ch ∈ keptChars)

/-- `BFFormatter.__init__` (lines 13-30).  `bf_file` is modelled by the
file's contents; line 26 removes the newline characters
(`f.read().replace('\n', '')`).  Returns the constructed token stream
`self.bf_string`, or `configuration` when neither source is given. -/
def mkBFFormatter (bf_string : Option (List Char))
    (bf_file_contents : Option (List Char)) (strip_comments : Bool) :
    Except FmtError (List Char) :=
  match bf_string, bf_file_contents with
  | some s, _ =>
    .ok (if strip_comments then stripComments s else s)
  | none, some contents =>
    let s := contents.filter (fun ch => ch ≠ '\n')
    .ok (if strip_comments then stripComments s else s)
  | none, none => .error .configuration

/-- The instance state of a `BFFormatter` object: the only instance field
is `bf_string` (the class-level default `None` is unreachable once the
constructor has run). -/
structure BFFormatter where
  bf_string : List Char

/-- The method call `self.format(...)` in state-passing form: the pair of
the instance state after the call and the call's result.  The method body
(lines 32-77) reads `self.bf_string` and assigns only local variables and
the output file, so the resulting state carries the same `bf_string`. -/
def BFFormatter.formatState (self : BFFormatter) (img : PILImage)
    (invert : Bool) (ws_fraction : ℚ) :
    BFFormatter × Except FmtError (List Char) :=
  (self, format self.bf_string img invert ws_fraction)

/-- The all-black 1×1 test image: every pixel of every resize is pure
black, matching PIL's behaviour of resizing a constant image to a constant
image. -/
def img11black : PILImage :=
  { size := (1, 1), resizeData := fun w h => List.replicate (w * h) (0, 0, 0) }

/-- The four-token example stream `"++--"`. -/
def bf4 : List Char := ['+', '+', '-', '-']

/-- A five-token stream, used to separate the two height formulas. -/
def bf5 : List Char := ['+', '+', '+', '+', '+']

/-- A one-token stream. -/
def bf1 : List Char := ['+']

/-- A 1×1 test image whose every resized pixel is `(242, 92, 142)` — an
RGB triple whose luminance is exactly `0.5`
(`0.2126*242 + 0.7152*92 + 0.0722*142 = 127.5`). -/
def img11gray : PILImage :=
  { size := (1, 1), resizeData := fun w h => List.replicate (w * h) (242, 92, 142) }

/-- Modelled from the spec's words (claim C5): the height formula
`height = ceil(n_scaled / width)` read with `width` being the already
rounded integer raster width `ceil(sqrt(n_scaled * origW / origH))` —
to be compared against the code's `rasterHeight`, which divides by the
width *before* rounding. -/
def claimedHeight (m W0 H0 : ℕ) : ℕ :=
  (⌈(m : ℚ) / (rasterWidth m W0 H0 : ℚ)⌉).toNat

/-! ### Properties of `ceilSqrtQ` -/

lemma ceilSqrtQ_spec {q : ℚ} (hq : 0 < q) :
    q ≤ (ceilSqrtQ q : ℚ) ^ 2 ∧ ((ceilSqrtQ q : ℚ) - 1) ^ 2 < q := by
  unfold ceilSqrtQ
  rw [if_neg (not_le.mpr hq)]
  set m : ℕ := Int.toNat ⌈q⌉ with hm
  set s : ℕ := Nat.sqrt m with hs
  have hceil : (0 : ℤ) < ⌈q⌉ := Int.ceil_pos.mpr hq
  have hmz : (m : ℤ) = ⌈q⌉ := Int.toNat_of_nonneg hceil.le
  have hqm : q ≤ (m : ℚ) := by
    have := Int.le_ceil q
    rw [← hmz] at this
    exact_mod_cast this
  have hmq : (m : ℚ) < q + 1 := by
    have := Int.ceil_lt_add_one q
    rw [← hmz] at this
    exact_mod_cast this
  have hs2 : ((s : ℚ)) ^ 2 ≤ (m : ℚ) := by exact_mod_cast Nat.sqrt_le' m
  have hm2 : (m : ℚ) < ((s : ℚ) + 1) ^ 2 := by exact_mod_cast Nat.lt_succ_sqrt' m
  have hs1 : (1 : ℚ) ≤ (s : ℚ) := by
    have hm1 : 1 ≤ m := by
      have : (0 : ℤ) < (m : ℤ) := by rw [hmz]; exact hceil
      exact_mod_cast this
    have : 0 < s := Nat.sqrt_pos.mpr hm1
    exact_mod_cast this
  by_cases h : q ≤ (s : ℚ) ^ 2
  · rw [if_pos h]
    exact ⟨h, by nlinarith⟩
  · rw [if_neg h]
    push_neg at h
    constructor
    · push_cast
      nlinarith
    · push_cast
      nlinarith

lemma ceilSqrtQ_eq_of {q : ℚ} {k : ℕ} (hq : 0 < q) (h1 : q ≤ (k : ℚ) ^ 2)
    (h2 : ((k : ℚ) - 1) ^ 2 < q) : ceilSqrtQ q = k := by
  obtain ⟨j1, j2⟩ := ceilSqrtQ_spec hq
  set j : ℕ := ceilSqrtQ q
  have hjk : j ≤ k := by
    by_contra hlt
    push_neg at hlt
    have : (k : ℚ) + 1 ≤ (j : ℚ) := by exact_mod_cast hlt
    have hk0 : (0 : ℚ) ≤ (k : ℚ) := by positivity
    nlinarith
  have hkj : k ≤ j := by
    by_contra hlt
    push_neg at hlt
    have : (j : ℚ) + 1 ≤ (k : ℚ) := by exact_mod_cast hlt
    have hj0 : (0 : ℚ) ≤ (j : ℚ) := by positivity
    nlinarith
  omega

/-! ### Properties of the raster scan -/

lemma scanCells_length (bf : List Char) (Y : List ℚ) (inv : ℚ) :
    ∀ (idxs : List ℕ) (c : ℕ),
      (scanCells bf Y inv idxs c).1.length = idxs.length := by
  intro idxs
  induction idxs with
  | nil => intro c; simp [scanCells]
  | cons i rest ih =>
    intro c
    by_cases h : c < bf.length ∧ inv * Y.getD i 0 < inv * 0.5
    · simp only [scanCells, if_pos h, List.length_cons, ih]
    · simp only [scanCells, if_neg h, List.length_cons, ih]

lemma scanCells_cursor_le (bf : List Char) (Y : List ℚ) (inv : ℚ) :
    ∀ (idxs : List ℕ) (c : ℕ), c ≤ bf.length →
      (scanCells bf Y inv idxs c).2 ≤ bf.length := by
  intro idxs
  induction idxs with
  | nil => intro c hc; simpa [scanCells] using hc
  | cons i rest ih =>
    intro c hc
    by_cases h : c < bf.length ∧ inv * Y.getD i 0 < inv * 0.5
    · simp only [scanCells, if_pos h]
      exact ih (c + 1) h.1
    · simp only [scanCells, if_neg h]
      exact ih c hc

lemma scanCells_conserve (bf : List Char) (Y : List ℚ) (inv : ℚ)
    (hb : ∀ ch ∈ bf, ch ≠ ' ') :
    ∀ (idxs : List ℕ) (c : ℕ), c ≤ bf.length →
      (scanCells bf Y inv idxs c).1.filter (fun ch => ch ≠ ' ') ++
        bf.drop (scanCells bf Y inv idxs c).2 = bf.drop c := by
  intro idxs
  induction idxs with
  | nil => intro c hc; simp [scanCells]
  | cons i rest ih =>
    intro c hc
    by_cases h : c < bf.length ∧ inv * Y.getD i 0 < inv * 0.5
    · have hcl : c < bf.length := h.1
      have hne : bf[c] ≠ ' ' := hb _ (List.getElem_mem hcl)
      simp only [scanCells, if_pos h, List.getD_eq_getElem bf ' ' hcl,
        List.filter_cons]
      rw [if_pos (decide_eq_true hne), List.cons_append,
        List.drop_eq_getElem_cons hcl]
      simp only [List.cons.injEq, true_and]
      exact ih (c + 1) hcl
    · simp only [scanCells, if_neg h, List.filter_cons]
      rw [if_neg (by simp)]
      exact ih c hc

lemma scanCells_getD_of_light (bf : List Char) (Y : List ℚ) (inv : ℚ) :
    ∀ (idxs : List ℕ) (c j : ℕ), j < idxs.length →
      ¬ inv * Y.getD (idxs.getD j 0) 0 < inv * 0.5 →
      (scanCells bf Y inv idxs c).1.getD j '?' = ' ' := by
  intro idxs
  induction idxs with
  | nil => intro c j hj _; simp at hj
  | cons i rest ih =>
    intro c j hj hlight
    match j with
    | 0 =>
      have h : ¬ (c < bf.length ∧ inv * Y.getD i 0 < inv * 0.5) := by
        simp only [List.getD_cons_zero] at hlight
        intro hcon
        exact hlight hcon.2
      simp only [scanCells, if_neg h, List.getD_cons_zero]
    | j + 1 =>
      simp only [List.getD_cons_succ] at hlight
      have hj' : j < rest.length := by simpa using hj
      by_cases h : c < bf.length ∧ inv * Y.getD i 0 < inv * 0.5
      · simp only [scanCells, if_pos h, List.getD_cons_succ]
        exact ih (c + 1) j hj' hlight
      · simp only [scanCells, if_neg h, List.getD_cons_succ]
        exact ih c j hj' hlight

lemma scanGrid_rows_length (bf : List Char) (Y : List ℚ) (inv : ℚ) (width : ℕ) :
    ∀ (ys : List ℕ) (c : ℕ),
      (scanGrid bf Y inv width ys c).1.length = ys.length := by
  intro ys
  induction ys with
  | nil => intro c; simp [scanGrid]
  | cons y rest ih => intro c; simp [scanGrid, ih]

lemma scanGrid_row_width (bf : List Char) (Y : List ℚ) (inv : ℚ) (width : ℕ) :
    ∀ (ys : List ℕ) (c : ℕ), ∀ r ∈ (scanGrid bf Y inv width ys c).1,
      r.length = width := by
  intro ys
  induction ys with
  | nil => intro c r hr; simp [scanGrid] at hr
  | cons y rest ih =>
    intro c r hr
    simp only [scanGrid, List.mem_cons] at hr
    rcases hr with hr | hr
    · subst hr
      rw [scanCells_length]
      simp
    · exact ih _ r hr

lemma scanGrid_cursor_le (bf : List Char) (Y : List ℚ) (inv : ℚ) (width : ℕ) :
    ∀ (ys : List ℕ) (c : ℕ), c ≤ bf.length →
      (scanGrid bf Y inv width ys c).2 ≤ bf.length := by
  intro ys
  induction ys with
  | nil => intro c hc; simpa [scanGrid] using hc
  | cons y rest ih =>
    intro c hc
    simp only [scanGrid]
    exact ih _ (scanCells_cursor_le bf Y inv _ c hc)

lemma scanGrid_conserve (bf : List Char) (Y : List ℚ) (inv : ℚ) (width : ℕ)
    (hb : ∀ ch ∈ bf, ch ≠ ' ') :
    ∀ (ys : List ℕ) (c : ℕ), c ≤ bf.length →
      (scanGrid bf Y inv width ys c).1.flatten.filter (fun ch => ch ≠ ' ') ++
        bf.drop (scanGrid bf Y inv width ys c).2 = bf.drop c := by
  intro ys
  induction ys with
  | nil => intro c hc; simp [scanGrid]
  | cons y rest ih =>
    intro c hc
    simp only [scanGrid, List.flatten_cons, List.filter_append, List.append_assoc]
    rw [ih _ (scanCells_cursor_le bf Y inv _ c hc)]
    exact scanCells_conserve bf Y inv hb _ c hc

lemma scanGrid_row_eq (bf : List Char) (Y : List ℚ) (inv : ℚ) (width : ℕ) :
    ∀ (ys : List ℕ) (c y : ℕ), y < ys.length →
      ∃ c', (scanGrid bf Y inv width ys c).1.getD y [] =
        (scanCells bf Y inv
          ((List.range width).map (fun x => ys.getD y 0 * width + x)) c').1 := by
  intro ys
  induction ys with
  | nil => intro c y hy; simp at hy
  | cons y0 rest ih =>
    intro c y hy
    match y with
    | 0 =>
      exact ⟨c, by simp [scanGrid]⟩
    | y + 1 =>
      have hy' : y < rest.length := by simpa using hy
      obtain ⟨c', hc'⟩ := ih
        (scanCells bf Y inv ((List.range width).map (fun x => y0 * width + x)) c).2 y hy'
      exact ⟨c', by simpa [scanGrid] using hc'⟩

lemma rowIdxs_getD (width y x : ℕ) (hx : x < width) :
    ((List.range width).map (fun t => y * width + t)).getD x 0 = y * width + x := by
  simp [List.getD_eq_getElem?_getD, List.getElem?_map, List.getElem?_range hx]

/-! ### Unpacking a successful `format` call -/

lemma formatParts_ok {bf : List Char} {img : PILImage} {invert : Bool}
    {ws_fraction : ℚ} {rows : List (List Char)} {left : List Char}
    (hok : formatParts bf img invert ws_fraction = .ok (rows, left)) :
    rows = (scanOf bf img invert ws_fraction).1 ∧
      left = (if (scanOf bf img invert ws_fraction).2 < bf.length then
        bf.drop (scanOf bf img invert ws_fraction).2 else []) := by
  unfold formatParts at hok
  split_ifs at hok
  all_goals
    first
    | exact Except.noConfusion hok
    | (simp only [Except.ok.injEq, Prod.mk.injEq] at hok
       exact ⟨hok.1.symm, hok.2.symm⟩)

lemma scanOf_fst (bf : List Char) (img : PILImage) (invert : Bool)
    (ws_fraction : ℚ) :
    (scanOf bf img invert ws_fraction).1 =
      (scanGrid bf (lumGrid bf img ws_fraction) (if invert then -1 else 1)
        (gridW bf img ws_fraction)
        (List.range (gridH bf img ws_fraction)) 0).1 := rfl

lemma scanOf_cursor_le (bf : List Char) (img : PILImage) (invert : Bool)
    (ws_fraction : ℚ) :
    (scanOf bf img invert ws_fraction).2 ≤ bf.length :=
  scanGrid_cursor_le _ _ _ _ _ 0 (Nat.zero_le _)

lemma formatParts_ok_left_drop {bf : List Char} {img : PILImage}
    {invert : Bool} {ws_fraction : ℚ} {rows : List (List Char)}
    {left : List Char}
    (hok : formatParts bf img invert ws_fraction = .ok (rows, left)) :
    left = bf.drop (scanOf bf img invert ws_fraction).2 := by
  rw [(formatParts_ok hok).2]
  by_cases hlt : (scanOf bf img invert ws_fraction).2 < bf.length
  · rw [if_pos hlt]
  · rw [if_neg hlt]
    have h2 : (scanOf bf img invert ws_fraction).2 = bf.length :=
      le_antisymm (scanOf_cursor_le bf img invert ws_fraction) (not_lt.mp hlt)
    rw [h2, List.drop_length bf]

/-! ### Claim C1 — token conservation -/

/-- C1.  Token conservation: for every token stream (whitespace-free, as
the spec's data model defines token streams) and every image for which
`format` succeeds, concatenating the non-space characters placed into the
raster in row-major scan order, followed by the leftover suffix,
reproduces the original token stream character for character. -/
theorem token_conservation (bf : List Char) (img : PILImage) (invert : Bool)
    (ws_fraction : ℚ) (rows : List (List Char)) (left : List Char)
    (hb : ∀ ch ∈ bf, ch ≠ ' ')
    (hok : formatParts bf img invert ws_fraction = .ok (rows, left)) :
    rows.flatten.filter (fun ch => ch ≠ ' ') ++ left = bf := by
  obtain ⟨hr, -⟩ := formatParts_ok hok
  rw [hr, formatParts_ok_left_drop hok]
  have h := scanGrid_conserve bf (lumGrid bf img ws_fraction)
    (if invert then -1 else 1) (gridW bf img ws_fraction) hb
    (List.range (gridH bf img ws_fraction)) 0 (Nat.zero_le _)
  rw [List.drop_zero] at h
  exact h

/-! ### Claim C2 — raster shape -/

/-- C2.  Raster shape: every successful `format` call returns a string
consisting of exactly `height` newline-terminated lines of exactly `width`
characters each (pre-newline), for the `width`/`height` computed in the
dimension-derivation step, followed only by the leftover suffix with no
added newline. -/
theorem raster_shape (bf : List Char) (img : PILImage) (invert : Bool)
    (ws_fraction : ℚ) (out : List Char)
    (hok : format bf img invert ws_fraction = .ok out) :
    ∃ (rows : List (List Char)) (left : List Char),
      out = (rows.map (fun row => row ++ ['\n'])).flatten ++ left ∧
      rows.length = gridH bf img ws_fraction ∧
      ∀ row ∈ rows, row.length = gridW bf img ws_fraction := by
  unfold format at hok
  cases hfp : formatParts bf img invert ws_fraction with
  | error e => rw [hfp] at hok; exact Except.noConfusion hok
  | ok p =>
    rw [hfp] at hok
    simp only [Except.map, Except.ok.injEq] at hok
    have hfp' : formatParts bf img invert ws_fraction = .ok (p.1, p.2) := by
      rw [hfp]
    obtain ⟨hr, -⟩ := formatParts_ok hfp'
    refine ⟨p.1, p.2, hok.symm, ?_, ?_⟩
    · rw [hr, scanOf_fst, scanGrid_rows_length, List.length_range]
    · intro row hrow
      rw [hr, scanOf_fst] at hrow
      exact scanGrid_row_width _ _ _ _ _ _ row hrow

/-! ### Claim C3 — threshold boundary -/

/-- C3.  Threshold boundary: in a successful `format` call, a raster cell
whose luminance is exactly `0.5` never receives a token and always
becomes whitespace, for both `invert = false` and `invert = true`
(the scan's test `inv*Y[idx] < inv*0.5` is strict in both cases). -/
theorem threshold_boundary (bf : List Char) (img : PILImage) (invert : Bool)
    (ws_fraction : ℚ) (rows : List (List Char)) (left : List Char)
    (hok : formatParts bf img invert ws_fraction = .ok (rows, left))
    (y x : ℕ) (hy : y < gridH bf img ws_fraction)
    (hx : x < gridW bf img ws_fraction)
    (hlum : (lumGrid bf img ws_fraction).getD
      (y * gridW bf img ws_fraction + x) 0 = 0.5) :
    (rows.getD y []).getD x '?' = ' ' := by
  obtain ⟨hr, -⟩ := formatParts_ok hok
  rw [hr, scanOf_fst]
  obtain ⟨c', hc'⟩ := scanGrid_row_eq bf (lumGrid bf img ws_fraction)
    (if invert then -1 else 1) (gridW bf img ws_fraction)
    (List.range (gridH bf img ws_fraction)) 0 y (by simpa using hy)
  have hyy : (List.range (gridH bf img ws_fraction)).getD y 0 = y := by
    simp [List.getD_eq_getElem?_getD, List.getElem?_range hy]
  rw [hyy] at hc'
  rw [hc']
  apply scanCells_getD_of_light
  · simpa using hx
  · rw [rowIdxs_getD _ _ _ hx, hlum]
    exact lt_irrefl _

/-! ### Concrete evaluations -/

lemma lum_black : luminance (0, 0, 0) = 0 := by
  norm_num [luminance]

lemma ceilSqrtQ_eight : ceilSqrtQ 8 = 3 :=
  ceilSqrtQ_eq_of (by norm_num) (by norm_num) (by norm_num)

lemma rasterWidth_one_one (m : ℕ) : rasterWidth m 1 1 = ceilSqrtQ (m : ℚ) := by
  unfold rasterWidth
  norm_num

lemma rasterHeight_one_one (m : ℕ) : rasterHeight m 1 1 = ceilSqrtQ (m : ℚ) := by
  unfold rasterHeight
  norm_num

lemma nScaled_bf4 : nScaled bf4.length (1 / 2) = 8 := by
  have h : ((4 : ℕ) : ℚ) / (1 - 1 / 2) = 8 := by norm_num
  have hl : bf4.length = 4 := rfl
  rw [nScaled, hl, h]
  rfl

lemma gridW_bf4 : gridW bf4 img11black (1 / 2) = 3 := by
  show rasterWidth (nScaled bf4.length (1 / 2)) 1 1 = 3
  rw [nScaled_bf4, rasterWidth_one_one]
  rw [show ((8 : ℕ) : ℚ) = 8 by norm_num]
  exact ceilSqrtQ_eight

lemma gridH_bf4 : gridH bf4 img11black (1 / 2) = 3 := by
  show rasterHeight (nScaled bf4.length (1 / 2)) 1 1 = 3
  rw [nScaled_bf4, rasterHeight_one_one]
  rw [show ((8 : ℕ) : ℚ) = 8 by norm_num]
  exact ceilSqrtQ_eight

lemma lumGrid_bf4 : lumGrid bf4 img11black (1 / 2) = List.replicate 9 0 := by
  unfold lumGrid
  rw [gridW_bf4, gridH_bf4]
  show (List.replicate (3 * 3) ((0 : ℕ), (0 : ℕ), (0 : ℕ))).map luminance = _
  rw [List.map_replicate, lum_black]

lemma replicate_getD (x : ℚ) (n i : ℕ) (h : i < n) :
    (List.replicate n x).getD i 0 = x := by
  simp [List.getD_eq_getElem?_getD, List.getElem?_replicate, h]

lemma range_three : List.range 3 = [0, 1, 2] := rfl

lemma scanOf_bf4 :
    scanOf bf4 img11black false (1 / 2) =
      ([['+', '+', '-'], ['-', ' ', ' '], [' ', ' ', ' ']], 4) := by
  unfold scanOf
  rw [lumGrid_bf4, gridW_bf4, gridH_bf4, range_three]
  norm_num [scanGrid, scanCells, replicate_getD, bf4, List.getD_cons_zero,
    List.getD_cons_succ]

lemma formatParts_bf4 :
    formatParts bf4 img11black false (1 / 2) =
      .ok ([['+', '+', '-'], ['-', ' ', ' '], [' ', ' ', ' ']], []) := by
  unfold formatParts
  rw [if_neg (by norm_num), if_neg (by norm_num [img11black]),
    if_neg (by norm_num [nScaled_bf4, img11black])]
  rw [scanOf_bf4]
  simp [bf4]

lemma format_bf4 :
    format bf4 img11black false (1 / 2) =
      .ok ['+', '+', '-', '\n', '-', ' ', ' ', '\n', ' ', ' ', ' ', '\n'] := by
  unfold format
  rw [formatParts_bf4]
  simp [Except.map]

/-! ### Claim C4 — concrete scenario -/

/-- C4.  Concrete scenario: for token stream `"++--"` (`n = 4`), a 1×1
fully black image, `ws_fraction = 0.5` and `invert = false`, `format`
computes `n_scaled = 8` and a 3×3 raster, places `+`, `+`, `-`, `-` into
the first 4 cells in row-major order with spaces in the remaining 5
cells, and returns the output whose rows are `++-`, `-  `, `   ` (each
newline-terminated) with no leftover suffix. -/
theorem concrete_scenario :
    nScaled bf4.length (1 / 2) = 8 ∧
    gridW bf4 img11black (1 / 2) = 3 ∧
    gridH bf4 img11black (1 / 2) = 3 ∧
    formatParts bf4 img11black false (1 / 2) =
      .ok ([['+', '+', '-'], ['-', ' ', ' '], [' ', ' ', ' ']], []) ∧
    format bf4 img11black false (1 / 2) =
      .ok ['+', '+', '-', '\n', '-', ' ', ' ', '\n', ' ', ' ', ' ', '\n'] :=
  ⟨nScaled_bf4, gridW_bf4, gridH_bf4, formatParts_bf4, format_bf4⟩

/-- Witness for C1 at the `"++--"`, 1×1-black-image, `ws_fraction = 0.5`
instance. -/
theorem token_conservation_witness :
    ([['+', '+', '-'], ['-', ' ', ' '], [' ', ' ', ' ']] :
        List (List Char)).flatten.filter (fun ch => ch ≠ ' ') ++
      ([] : List Char) = bf4 :=
  token_conservation bf4 img11black false (1 / 2) _ _ (by decide) formatParts_bf4

/-- Witness for C2 at the `"++--"`, 1×1-black-image, `ws_fraction = 0.5`
instance. -/
theorem raster_shape_witness :
    ∃ (rows : List (List Char)) (left : List Char),
      (['+', '+', '-', '\n', '-', ' ', ' ', '\n', ' ', ' ', ' ', '\n'] :
          List Char) =
        (rows.map (fun row => row ++ ['\n'])).flatten ++ left ∧
      rows.length = gridH bf4 img11black (1 / 2) ∧
      ∀ row ∈ rows, row.length = gridW bf4 img11black (1 / 2) :=
  raster_shape bf4 img11black false (1 / 2) _ format_bf4

lemma lum_gray : luminance (242, 92, 142) = 0.5 := by
  norm_num [luminance]

lemma ceilSqrtQ_two : ceilSqrtQ 2 = 2 :=
  ceilSqrtQ_eq_of (by norm_num) (by norm_num) (by norm_num)

lemma nScaled_bf1 : nScaled bf1.length (1 / 2) = 2 := by
  have h : ((1 : ℕ) : ℚ) / (1 - 1 / 2) = 2 := by norm_num
  have hl : bf1.length = 1 := rfl
  rw [nScaled, hl, h]
  rfl

lemma gridW_bf1gray : gridW bf1 img11gray (1 / 2) = 2 := by
  show rasterWidth (nScaled bf1.length (1 / 2)) 1 1 = 2
  rw [nScaled_bf1, rasterWidth_one_one, show ((2 : ℕ) : ℚ) = 2 by norm_num]
  exact ceilSqrtQ_two

lemma gridH_bf1gray : gridH bf1 img11gray (1 / 2) = 2 := by
  show rasterHeight (nScaled bf1.length (1 / 2)) 1 1 = 2
  rw [nScaled_bf1, rasterHeight_one_one, show ((2 : ℕ) : ℚ) = 2 by norm_num]
  exact ceilSqrtQ_two

lemma lumGrid_bf1gray :
    lumGrid bf1 img11gray (1 / 2) = List.replicate 4 0.5 := by
  unfold lumGrid
  rw [gridW_bf1gray, gridH_bf1gray]
  show (List.replicate (2 * 2) ((242 : ℕ), (92 : ℕ), (142 : ℕ))).map luminance = _
  rw [List.map_replicate, lum_gray]

lemma range_two : List.range 2 = [0, 1] := rfl

lemma scanOf_bf1gray :
    scanOf bf1 img11gray false (1 / 2) = ([[' ', ' '], [' ', ' ']], 0) := by
  unfold scanOf
  rw [lumGrid_bf1gray, gridW_bf1gray, gridH_bf1gray, range_two]
  norm_num [scanGrid, scanCells, replicate_getD]

lemma formatParts_bf1gray :
    formatParts bf1 img11gray false (1 / 2) =
      .ok ([[' ', ' '], [' ', ' ']], ['+']) := by
  unfold formatParts
  rw [if_neg (by norm_num), if_neg (by norm_num [img11gray]),
    if_neg (by norm_num [nScaled_bf1, img11gray])]
  rw [scanOf_bf1gray]
  simp [bf1]

/-- Witness for C3: with the all-`0.5`-luminance image every cell is
light, the single token is never placed (it overflows), and cell (0,0)
of the raster is a space. -/
theorem threshold_boundary_witness :
    (([[' ', ' '], [' ', ' ']] : List (List Char)).getD 0 []).getD 0 '?' = ' ' :=
  threshold_boundary bf1 img11gray false (1 / 2) _ _ formatParts_bf1gray 0 0
    (by rw [gridH_bf1gray]; norm_num)
    (by rw [gridW_bf1gray]; norm_num)
    (by rw [lumGrid_bf1gray]; simp)

/-! ### Claim C5 — dimension derivation -/

lemma ceilSqrtQ_five : ceilSqrtQ 5 = 3 :=
  ceilSqrtQ_eq_of (by norm_num) (by norm_num) (by norm_num)

lemma nScaled_bf5 : nScaled bf5.length 0 = 5 := by
  have h : ((5 : ℕ) : ℚ) / (1 - 0) = 5 := by norm_num
  have hl : bf5.length = 5 := rfl
  rw [nScaled, hl, h]
  rfl

lemma gridW_bf5 : gridW bf5 img11black 0 = 3 := by
  show rasterWidth (nScaled bf5.length 0) 1 1 = 3
  rw [nScaled_bf5, rasterWidth_one_one, show ((5 : ℕ) : ℚ) = 5 by norm_num]
  exact ceilSqrtQ_five

lemma gridH_bf5 : gridH bf5 img11black 0 = 3 := by
  show rasterHeight (nScaled bf5.length 0) 1 1 = 3
  rw [nScaled_bf5, rasterHeight_one_one, show ((5 : ℕ) : ℚ) = 5 by norm_num]
  exact ceilSqrtQ_five

lemma lumGrid_bf5 : lumGrid bf5 img11black 0 = List.replicate 9 0 := by
  unfold lumGrid
  rw [gridW_bf5, gridH_bf5]
  show (List.replicate (3 * 3) ((0 : ℕ), (0 : ℕ), (0 : ℕ))).map luminance = _
  rw [List.map_replicate, lum_black]

lemma scanOf_bf5 :
    scanOf bf5 img11black false 0 =
      ([['+', '+', '+'], ['+', '+', ' '], [' ', ' ', ' ']], 5) := by
  unfold scanOf
  rw [lumGrid_bf5, gridW_bf5, gridH_bf5, range_three]
  norm_num [scanGrid, scanCells, replicate_getD, bf5, List.getD_cons_zero,
    List.getD_cons_succ]

lemma formatParts_bf5 :
    formatParts bf5 img11black false 0 =
      .ok ([['+', '+', '+'], ['+', '+', ' '], [' ', ' ', ' ']], []) := by
  unfold formatParts
  rw [if_neg (by norm_num), if_neg (by norm_num [img11black]),
    if_neg (by norm_num [nScaled_bf5, img11black])]
  rw [scanOf_bf5]
  simp [bf5]

lemma claimedHeight_five : claimedHeight 5 1 1 = 2 := by
  unfold claimedHeight
  rw [rasterWidth_one_one, show ((5 : ℕ) : ℚ) = 5 by norm_num, ceilSqrtQ_five]
  rw [show ⌈(5 : ℚ) / ((3 : ℕ) : ℚ)⌉ = 2 by
    rw [Int.ceil_eq_iff]
    constructor <;> norm_num]
  rfl

/-- Counterexample to C5 as stated: for the 5-token stream, a 1×1 image
and `ws_fraction = 0` (so `n_scaled = 5`), the code produces a raster of
`height = 3` rows — `ceil(5 / sqrt 5) = ceil(sqrt 5) = 3`, dividing by
the *unrounded* width — while the claimed formula
`ceil(n_scaled / width)` with the rounded `width = ceil(sqrt 5) = 3`
yields `ceil(5/3) = 2`. -/
theorem height_formula_counterexample :
    nScaled bf5.length 0 = 5 ∧
    gridH bf5 img11black 0 = 3 ∧
    claimedHeight (nScaled bf5.length 0) 1 1 = 2 ∧
    formatParts bf5 img11black false 0 =
      .ok ([['+', '+', '+'], ['+', '+', ' '], [' ', ' ', ' ']], []) := by
  refine ⟨nScaled_bf5, gridH_bf5, ?_, formatParts_bf5⟩
  rw [nScaled_bf5]
  exact claimedHeight_five

lemma ceilSqrtQ_pos (q : ℚ) (hq : 0 < q) : 1 ≤ ceilSqrtQ q := by
  by_contra h
  push_neg at h
  have hk : ceilSqrtQ q = 0 := by omega
  have h1 := (ceilSqrtQ_spec hq).1
  rw [hk] at h1
  norm_num at h1
  linarith

lemma ceilSqrtQ_eq_real_ceil (q : ℚ) (hq : 0 < q) :
    (ceilSqrtQ q : ℤ) = ⌈Real.sqrt ((q : ℝ))⌉ := by
  obtain ⟨h1, h2⟩ := ceilSqrtQ_spec hq
  have hk1 : 1 ≤ ceilSqrtQ q := ceilSqrtQ_pos q hq
  symm
  rw [Int.ceil_eq_iff]
  constructor
  · have hc : ((ceilSqrtQ q : ℝ) - 1) ^ 2 < (q : ℝ) := by exact_mod_cast h2
    have hge : (1 : ℝ) ≤ (ceilSqrtQ q : ℝ) := by exact_mod_cast hk1
    have hlt := (Real.lt_sqrt (by linarith)).mpr hc
    push_cast
    exact hlt
  · have hc : (q : ℝ) ≤ ((ceilSqrtQ q : ℝ)) ^ 2 := by exact_mod_cast h1
    have hle := (Real.sqrt_le_left (by positivity)).mpr hc
    push_cast
    exact hle

lemma rasterWidth_eq_real_ceil (m W0 H0 : ℕ) (hm : 1 ≤ m) (hW : 1 ≤ W0)
    (hH : 1 ≤ H0) :
    (rasterWidth m W0 H0 : ℤ) = ⌈Real.sqrt ((m * W0 : ℕ) / (H0 : ℝ))⌉ := by
  have hq : (0 : ℚ) < ((m * W0 : ℕ) : ℚ) / (H0 : ℚ) := by
    apply div_pos
    · exact_mod_cast Nat.mul_pos hm hW
    · exact_mod_cast hH
  rw [rasterWidth, ceilSqrtQ_eq_real_ceil _ hq]
  congr 1
  push_cast
  ring

lemma rasterHeight_eq_real_ceil (m W0 H0 : ℕ) (hm : 1 ≤ m) (hW : 1 ≤ W0)
    (hH : 1 ≤ H0) :
    (rasterHeight m W0 H0 : ℤ) =
      ⌈(m : ℝ) / Real.sqrt ((m * W0 : ℕ) / (H0 : ℝ))⌉ := by
  have hm' : (0 : ℝ) < (m : ℝ) := by exact_mod_cast hm
  have hW' : (0 : ℝ) < (W0 : ℝ) := by exact_mod_cast hW
  have hH' : (0 : ℝ) < (H0 : ℝ) := by exact_mod_cast hH
  have key : (m : ℝ) / Real.sqrt (((m * W0 : ℕ) : ℝ) / (H0 : ℝ)) =
      Real.sqrt (((m * H0 : ℕ) : ℝ) / (W0 : ℝ)) := by
    have harg : ((m * H0 : ℕ) : ℝ) / (W0 : ℝ) =
        ((m : ℝ) ^ 2) / (((m * W0 : ℕ) : ℝ) / (H0 : ℝ)) := by
      push_cast
      field_simp
      ring
    rw [harg]
    conv_rhs => rw [Real.sqrt_div (sq_nonneg ((m : ℝ)))
      (((m * W0 : ℕ) : ℝ) / (H0 : ℝ))]
    rw [Real.sqrt_sq hm'.le]
  rw [key]
  have hq : (0 : ℚ) < ((m * H0 : ℕ) : ℚ) / (W0 : ℚ) := by
    apply div_pos
    · exact_mod_cast Nat.mul_pos hm hH
    · exact_mod_cast hW
  rw [rasterHeight, ceilSqrtQ_eq_real_ceil _ hq]
  congr 1
  push_cast
  ring

lemma le_nScaled (n : ℕ) (ws_fraction : ℚ) (h0 : 0 ≤ ws_fraction)
    (h1 : ws_fraction < 1) : n ≤ nScaled n ws_fraction := by
  unfold nScaled
  have hpos : 0 < 1 - ws_fraction := by linarith
  have hn0 : (0 : ℚ) ≤ (n : ℚ) := Nat.cast_nonneg n
  have hle : (n : ℚ) ≤ (n : ℚ) / (1 - ws_fraction) := by
    rw [le_div_iff₀ hpos]
    nlinarith [mul_nonneg hn0 h0]
  have hfl : (n : ℤ) ≤ ⌊(n : ℚ) / (1 - ws_fraction)⌋ := by
    rw [Int.le_floor]
    exact_mod_cast hle
  omega

/-- C5 amended: the raster dimensions in real arithmetic.  `format`
computes `n_scaled = floor(n / (1 - ws_fraction))`,
`width = ceil(sqrt(n_scaled * origW / origH))`, and
`height = ceil(n_scaled / w_r)` where `w_r = sqrt(n_scaled * origW /
origH)` is the width *before* it is rounded up (line 52 divides by the
real-valued width of line 51; the rounding happens on lines 53-54). -/
theorem dimension_derivation (n W0 H0 : ℕ) (ws_fraction : ℚ) (hn : 1 ≤ n)
    (h0 : 0 ≤ ws_fraction) (h1 : ws_fraction < 1) (hW : 1 ≤ W0)
    (hH : 1 ≤ H0) :
    ((nScaled n ws_fraction : ℤ) = ⌊(n : ℚ) / (1 - ws_fraction)⌋) ∧
    ((rasterWidth (nScaled n ws_fraction) W0 H0 : ℤ) =
      ⌈Real.sqrt ((nScaled n ws_fraction * W0 : ℕ) / (H0 : ℝ))⌉) ∧
    ((rasterHeight (nScaled n ws_fraction) W0 H0 : ℤ) =
      ⌈(nScaled n ws_fraction : ℝ) /
        Real.sqrt ((nScaled n ws_fraction * W0 : ℕ) / (H0 : ℝ))⌉) := by
  have hm : 1 ≤ nScaled n ws_fraction :=
    le_trans hn (le_nScaled n ws_fraction h0 h1)
  refine ⟨?_, rasterWidth_eq_real_ceil _ _ _ hm hW hH,
    rasterHeight_eq_real_ceil _ _ _ hm hW hH⟩
  unfold nScaled
  rw [Int.toNat_of_nonneg]
  apply Int.floor_nonneg.mpr
  apply div_nonneg (Nat.cast_nonneg n)
  linarith

/-- Witness for the amended C5 at `n = 5`, `ws_fraction = 0`, 1×1
image. -/
theorem dimension_derivation_witness :
    ((nScaled 5 0 : ℤ) = ⌊((5 : ℕ) : ℚ) / (1 - 0)⌋) ∧
    ((rasterWidth (nScaled 5 0) 1 1 : ℤ) =
      ⌈Real.sqrt ((nScaled 5 0 * 1 : ℕ) / ((1 : ℕ) : ℝ))⌉) ∧
    ((rasterHeight (nScaled 5 0) 1 1 : ℤ) =
      ⌈(nScaled 5 0 : ℝ) /
        Real.sqrt ((nScaled 5 0 * 1 : ℕ) / ((1 : ℕ) : ℝ))⌉) :=
  dimension_derivation 5 1 1 0 (by norm_num) (by norm_num) (by norm_num)
    (by norm_num) (by norm_num)

/-! ### Claim C6 — raster capacity -/

lemma capacity_of_spec (m W0 H0 : ℕ) (hm : 1 ≤ m) (hW : 1 ≤ W0)
    (hH : 1 ≤ H0) :
    m ≤ rasterWidth m W0 H0 * rasterHeight m W0 H0 := by
  have hq1 : (0 : ℚ) < ((m * W0 : ℕ) : ℚ) / (H0 : ℚ) := by
    apply div_pos
    · exact_mod_cast Nat.mul_pos hm hW
    · exact_mod_cast hH
  have hq2 : (0 : ℚ) < ((m * H0 : ℕ) : ℚ) / (W0 : ℚ) := by
    apply div_pos
    · exact_mod_cast Nat.mul_pos hm hH
    · exact_mod_cast hW
  obtain ⟨hw, -⟩ := ceilSqrtQ_spec hq1
  obtain ⟨hh, -⟩ := ceilSqrtQ_spec hq2
  have hW0 : ((W0 : ℚ)) ≠ 0 := by positivity
  have hH0 : ((H0 : ℚ)) ≠ 0 := by positivity
  have hprod : (((m * W0 : ℕ) : ℚ) / (H0 : ℚ)) *
      (((m * H0 : ℕ) : ℚ) / (W0 : ℚ)) = (m : ℚ) ^ 2 := by
    push_cast
    field_simp
    ring
  unfold rasterWidth rasterHeight
  set w := ceilSqrtQ (((m * W0 : ℕ) : ℚ) / (H0 : ℚ)) with hwdef
  set h := ceilSqrtQ (((m * H0 : ℕ) : ℚ) / (W0 : ℚ)) with hhdef
  by_contra hcon
  push_neg at hcon
  have hwh : ((w * h : ℕ) : ℚ) + 1 ≤ (m : ℚ) := by exact_mod_cast hcon
  have hw0 : (0 : ℚ) ≤ (w : ℚ) := Nat.cast_nonneg w
  have hh0 : (0 : ℚ) ≤ (h : ℚ) := Nat.cast_nonneg h
  have hm2 : (m : ℚ) ^ 2 ≤ ((w : ℚ) ^ 2) * ((h : ℚ) ^ 2) := by
    rw [← hprod]
    exact mul_le_mul hw hh (le_of_lt hq2) (by positivity)
  push_cast at hwh
  nlinarith [hm2, hwh, mul_nonneg hw0 hh0]

/-- C6.  Raster capacity: for every token count `n ≥ 1`, whitespace
fraction in `[0, 1)` and image with positive native dimensions, the
computed integer `width` and `height` satisfy
`width * height ≥ n_scaled ≥ n`: the raster never has fewer cells than
tokens to place. -/
theorem raster_capacity (n W0 H0 : ℕ) (ws_fraction : ℚ) (hn : 1 ≤ n)
    (h0 : 0 ≤ ws_fraction) (h1 : ws_fraction < 1) (hW : 1 ≤ W0)
    (hH : 1 ≤ H0) :
    n ≤ nScaled n ws_fraction ∧
    nScaled n ws_fraction ≤
      rasterWidth (nScaled n ws_fraction) W0 H0 *
        rasterHeight (nScaled n ws_fraction) W0 H0 :=
  ⟨le_nScaled n ws_fraction h0 h1,
   capacity_of_spec _ W0 H0 (le_trans hn (le_nScaled n ws_fraction h0 h1))
     hW hH⟩

/-- Witness for C6 at `n = 4`, `ws_fraction = 1/2`, a 1×1 image. -/
theorem raster_capacity_witness :
    4 ≤ nScaled 4 (1 / 2) ∧
    nScaled 4 (1 / 2) ≤
      rasterWidth (nScaled 4 (1 / 2)) 1 1 * rasterHeight (nScaled 4 (1 / 2)) 1 1 :=
  raster_capacity 4 1 1 (1 / 2) (by norm_num) (by norm_num) (by norm_num)
    (by norm_num) (by norm_num)

/-! ### Claim C7 — parameter validation -/

lemma formatParts_error_inv_iff (bf : List Char) (img : PILImage)
    (invert : Bool) (ws_fraction : ℚ) :
    formatParts bf img invert ws_fraction = .error .invalidParameter ↔
      (ws_fraction ≥ 1 ∨ ws_fraction < 0) := by
  unfold formatParts
  by_cases h : ws_fraction ≥ 1 ∨ ws_fraction < 0
  · rw [if_pos h]
    exact iff_of_true rfl h
  · rw [if_neg h]
    refine iff_of_false ?_ h
    intro hcon
    split_ifs at hcon
    all_goals exact FmtError.noConfusion (Except.error.inj hcon)

lemma format_eq_error_iff (bf : List Char) (img : PILImage) (invert : Bool)
    (ws_fraction : ℚ) (e : FmtError) :
    format bf img invert ws_fraction = .error e ↔
      formatParts bf img invert ws_fraction = .error e := by
  unfold format
  cases formatParts bf img invert ws_fraction with
  | error e' => simp [Except.map]
  | ok p => simp [Except.map]

/-- C7.  Parameter validation: `format` raises the invalid-parameter
error exactly when `ws_fraction` lies outside `[0, 1)` — in particular
`ws_fraction = 1` and `ws_fraction = -1/10` fail while `0` and
`999/1000` pass the validation — and on such failure the call produces
no output (an `Except.error` carries no output string, matching the
source, where the file write happens only after the raster is built). -/
theorem parameter_validation (bf : List Char) (img : PILImage)
    (invert : Bool) :
    (∀ ws_fraction : ℚ,
      format bf img invert ws_fraction = .error .invalidParameter ↔
        (ws_fraction ≥ 1 ∨ ws_fraction < 0)) ∧
    format bf img invert 1 = .error .invalidParameter ∧
    format bf img invert (-(1 / 10)) = .error .invalidParameter ∧
    format bf img invert 0 ≠ .error .invalidParameter ∧
    format bf img invert (999 / 1000) ≠ .error .invalidParameter := by
  have key : ∀ ws_fraction : ℚ,
      format bf img invert ws_fraction = .error .invalidParameter ↔
        (ws_fraction ≥ 1 ∨ ws_fraction < 0) := fun w => by
    rw [format_eq_error_iff]
    exact formatParts_error_inv_iff bf img invert w
  refine ⟨key, (key 1).mpr (by norm_num), (key (-(1 / 10))).mpr (by norm_num),
    ?_, ?_⟩
  · intro hcon
    rcases (key 0).mp hcon with h | h <;> norm_num at h
  · intro hcon
    rcases (key (999 / 1000)).mp hcon with h | h <;> norm_num at h

/-- Witness for C7 at the boundary value `ws_fraction = 1` with a
concrete stream and image. -/
theorem parameter_validation_witness :
    format bf4 img11black false 1 = .error .invalidParameter :=
  (parameter_validation bf4 img11black false).2.1

/-! ### Claim C8 — empty stream -/

lemma nScaled_zero (ws_fraction : ℚ) : nScaled 0 ws_fraction = 0 := by
  unfold nScaled
  rw [Nat.cast_zero, zero_div]
  rfl

/-- Counterexample to C8 as stated: `format` on the empty token stream
does not succeed — with `n = 0`, `n_scaled = 0` and the real-valued
width of line 51 is `sqrt(0) = 0.0`, so line 52 (`height =
n_scaled/width`) raises `ZeroDivisionError` instead of producing an
all-whitespace raster. -/
theorem empty_stream_counterexample :
    format [] img11black false (1 / 2) = .error .zeroDivision := by
  unfold format formatParts
  rw [if_neg (by norm_num), if_neg (by norm_num [img11black]),
    if_pos (by rw [show ([] : List Char).length = 0 from rfl, nScaled_zero]; rfl)]
  rfl

/-- C8 amended: constructing a formatter whose token stream is empty
does not raise, but calling `format` on an empty token stream never
succeeds: for every image and every valid `ws_fraction` it fails with
the division-by-zero error of line 52 (`n_scaled = 0` makes the
real-valued width `0.0`), so no output at all is produced. -/
theorem empty_stream_behaviour :
    (∀ strip_comments : Bool,
      mkBFFormatter (some []) none strip_comments = .ok []) ∧
    ∀ (img : PILImage) (invert : Bool) (ws_fraction : ℚ),
      0 ≤ ws_fraction → ws_fraction < 1 →
      format [] img invert ws_fraction = .error .zeroDivision := by
  constructor
  · intro strip
    cases strip <;> rfl
  · intro img invert ws h0 h1
    unfold format formatParts
    rw [if_neg (by rintro (h | h) <;> linarith)]
    have hz : nScaled ([] : List Char).length ws = 0 := by
      rw [show ([] : List Char).length = 0 from rfl, nScaled_zero]
    by_cases h2 : img.size.2 = 0
    · rw [if_pos h2]
      rfl
    · rw [if_neg h2, if_pos (by rw [hz, Nat.zero_mul])]
      rfl

/-- Witness for the amended C8. -/
theorem empty_stream_behaviour_witness :
    mkBFFormatter (some []) none true = .ok [] ∧
    format [] img11black false (1 / 2) = .error .zeroDivision :=
  ⟨empty_stream_behaviour.1 true,
   empty_stream_behaviour.2 img11black false (1 / 2) (by norm_num) (by norm_num)⟩

/-! ### Claim C9 — comment stripping -/

/-- C9 exhibits a code bug: the docstring (and the spec) say comment
stripping keeps exactly `[`, `]`, `<`, `>`, `.`, `,`, `+`, `-`, but the
regex `[^\[^\]^<^>^\.^,^\+^-]` also lists `^` as a member of its negated
character class, so `^` survives stripping: `"a^b"` strips to `"^"`,
not `""`, and `^` is not in the documented whitelist. -/
theorem strip_comments_keeps_caret :
    stripComments ['a', '^', 'b'] = ['^'] ∧
    mkBFFormatter (some ['a', '^', 'b']) none true = .ok ['^'] :=
  ⟨rfl, rfl⟩

/-! ### Claim C10 — format does not mutate the token stream -/

/-- C10.  Purity of `format` with respect to the token stream: in the
state-passing embedding of the method (whose body never assigns to
`self`), the instance's `bf_string` is identical after every call —
whatever the call's outcome — and calling `format` twice in succession
on the same instance with the same image, invert flag and whitespace
fraction returns identical results. -/
theorem format_pure (self : BFFormatter) (img : PILImage) (invert : Bool)
    (ws_fraction : ℚ) :
    (self.formatState img invert ws_fraction).1.bf_string = self.bf_string ∧
    ((self.formatState img invert ws_fraction).1.formatState img invert
        ws_fraction).2 = (self.formatState img invert ws_fraction).2 :=
  ⟨rfl, rfl⟩
